import Mathlib

/-! Shallow embedding of the highscore websocket relay server (`server.py`).

The room state machine, the registry of rooms, and the session handler's
connect / message / disconnect steps are translated as pure functions.
Python dicts become insertion-ordered association lists, Python sets become
duplicate-free lists, websocket handles become abstract `Nat` tokens, and a
send to a handle fails exactly when the handle is listed as dead. -/

set_option autoImplicit false

/-- JSON values as produced by json.loads; objects keep key insertion order. -/
inductive Json where
  | jnull : Json
  | jbool : Bool → Json
  | jnum : Int → Json
  | jstr : String → Json
  | jarr : List Json → Json
  | jobj : List (String × Json) → Json

/-- Python `k in d` on a dict modelled as an association list. -/
def dictContains {κ α : Type} [BEq κ] (d : List (κ × α)) (k : κ) : Bool :=
  d.any (fun kv => kv.1 == k)

/-- Python `d[k] = v`: overwrite in place when the key exists, else append. -/
def dictSet {κ α : Type} [BEq κ] (d : List (κ × α)) (k : κ) (v : α) : List (κ × α) :=
  if dictContains d k then d.map (fun kv => if kv.1 == k then (k, v) else kv)
  else d ++ [(k, v)]

/-- Python `del d[k]` (no-op when absent, as guarded in the source). -/
def dictDelete {κ α : Type} [BEq κ] (d : List (κ × α)) (k : κ) : List (κ × α) :=
  d.filter (fun kv => kv.1 != k)

/-- Python `d.get(k)`. -/
def dictFind {κ α : Type} [BEq κ] (d : List (κ × α)) (k : κ) : Option α :=
  (d.find? (fun kv => kv.1 == k)).map (fun kv => kv.2)

/-- Python `d.setdefault(k, v)`: append the pair only when the key is absent. -/
def setdefault {κ α : Type} [BEq κ] (d : List (κ × α)) (k : κ) (v : α) : List (κ × α) :=
  match dictFind d k with
  | some _ => d
  | none => d ++ [(k, v)]

/-- Number of entries of the dict carrying key `k`. -/
def countKey {κ α : Type} [BEq κ] (d : List (κ × α)) (k : κ) : Nat :=
  (d.filter (fun kv => kv.1 == k)).length

/-- The dict's keys are pairwise distinct (true of every Python dict). -/
def keysNodup {κ α : Type} (d : List (κ × α)) : Prop :=
  (d.map Prod.fst).Nodup

/-- Python `s.add(x)` on a set modelled as a duplicate-free list. -/
def setAdd (s : List String) (x : String) : List String :=
  if x ∈ s then s else s ++ [x]

/-- Python `s.remove(x)` (guarded by membership in the source, hence total). -/
def setRemove (s : List String) (x : String) : List String :=
  s.filter (fun y => y != x)

/-- `MatchRoom` from server.py: occupant dict `players` mapping player_id to a
connection handle, and the set `ready_players` of ids that signalled ready. -/
structure MatchRoom where
  match_id : String
  players : List (String × Nat)
  ready_players : List String
deriving DecidableEq

/-- `MatchRoom.__init__`: fresh room with no occupants and empty ready set. -/
def MatchRoom.init (mid : String) : MatchRoom :=
  { match_id := mid, players := [], ready_players := [] }

/-- `MatchRoom.is_full`: `len(self.players) >= 2`. -/
def MatchRoom.is_full (r : MatchRoom) : Bool :=
  decide (2 ≤ r.players.length)

/-- `MatchRoom.add_player`: `self.players[conn.player_id] = conn`. -/
def MatchRoom.add_player (r : MatchRoom) (pid : String) (conn : Nat) : MatchRoom :=
  { r with players := dictSet r.players pid conn }

/-- `MatchRoom.remove_player`: delete the occupant entry and discard the id
from the ready set, each guarded by membership in the source. -/
def MatchRoom.remove_player (r : MatchRoom) (pid : String) : MatchRoom :=
  { r with players := dictDelete r.players pid,
           ready_players := setRemove r.ready_players pid }

/-- `MatchRoom.mark_ready`: add the id to the ready set, then report
`len(self.ready_players) >= 2 and self.is_full()`. -/
def MatchRoom.mark_ready (r : MatchRoom) (pid : String) : MatchRoom × Bool :=
  let r' := { r with ready_players := setAdd r.ready_players pid }
  (r', decide (2 ≤ r'.ready_players.length) && r'.is_full)

/-- `MatchRoom.other_players`: connection handles of every occupant whose id
differs from `pid`, in occupant-dict order. -/
def MatchRoom.other_players (r : MatchRoom) (pid : String) : List Nat :=
  (r.players.filter (fun kv => kv.1 != pid)).map (fun kv => kv.2)

/-- Reconnection reset from the session handler (server.py lines 76-93):
`remove_player(player_id)` followed by `ready_players.clear()`. -/
def MatchRoom.reconnectReset (r : MatchRoom) (pid : String) : MatchRoom :=
  { r.remove_player pid with ready_players := [] }

/-- Outcome of the connect phase of the session handler. -/
inductive ConnectResult where
  | rejected : ConnectResult
  | joined : ConnectResult
deriving DecidableEq

/-- Connect phase of `websocket_endpoint` (server.py lines 76-105): reset on a
reconnecting id, then reject iff the room is full and the id is not an
occupant, else register the occupant. -/
def connectStep (r : MatchRoom) (pid : String) (conn : Nat) : MatchRoom × ConnectResult :=
  let r1 := if dictContains r.players pid then r.reconnectReset pid else r
  if r1.is_full && !(dictContains r1.players pid) then (r1, ConnectResult.rejected)
  else (r1.add_player pid conn, ConnectResult.joined)

/-- A single `websocket.send_text`: fails exactly when the handle is dead. -/
def sendTo (dead : List Nat) (c : Nat) : Except Unit Unit :=
  if c ∈ dead then Except.error () else Except.ok ()

/-- Sends issued one after another with no exception handler: the first
failure aborts the remaining sends and propagates. Returns the attempted
sends and the surviving exception state. -/
def sendSeq (dead : List Nat) : List (Nat × Json) → List (Nat × Json) × Except Unit Unit
  | [] => ([], Except.ok ())
  | m :: rest =>
    match sendTo dead m.1 with
    | Except.error _ => ([m], Except.error ())
    | Except.ok _ =>
      let out := sendSeq dead rest
      (m :: out.1, out.2)

/-- Sends issued one after another, each wrapped in `try ... except: pass`
(server.py lines 166-170): a failure is swallowed and the loop continues. -/
def sendSeqLenient (dead : List Nat) : List (Nat × Json) → List (Nat × Json) × Except Unit Unit
  | [] => ([], Except.ok ())
  | m :: rest =>
    let out := sendSeqLenient dead rest
    match sendTo dead m.1 with
    | Except.error _ => (m :: out.1, out.2)
    | Except.ok _ => (m :: out.1, out.2)

/-- The `player_joined` message of server.py lines 109-113. -/
def joinedMsg (mid pid : String) : Json :=
  Json.jobj [("type", Json.jstr "player_joined"),
             ("player_id", Json.jstr pid),
             ("match_id", Json.jstr mid)]

/-- The `player_left` message of server.py lines 161-165. -/
def leftMsg (mid pid : String) : Json :=
  Json.jobj [("type", Json.jstr "player_left"),
             ("player_id", Json.jstr pid),
             ("match_id", Json.jstr mid)]

/-- The `match_start` message of server.py lines 135-138. -/
def matchStartMsg (mid : String) : Json :=
  Json.jobj [("type", Json.jstr "match_start"), ("match_id", Json.jstr mid)]

/-- Join broadcast (server.py lines 108-115): the `player_joined` message sent
to every other occupant, with no exception handler around the sends. -/
def joinBroadcast (dead : List Nat) (r : MatchRoom) (mid pid : String) :
    List (Nat × Json) × Except Unit Unit :=
  sendSeq dead ((r.other_players pid).map (fun c => (c, joinedMsg mid pid)))

/-- Leave broadcast (server.py lines 160-170): the `player_left` message sent
to every other occupant, each send wrapped in `try ... except: pass`. -/
def leaveBroadcast (dead : List Nat) (r : MatchRoom) (mid pid : String) :
    List (Nat × Json) × Except Unit Unit :=
  sendSeqLenient dead ((r.other_players pid).map (fun c => (c, leftMsg mid pid)))

/-- The check `isinstance(data, dict) and data.get("type") == "player_ready"`
restricted to the dict case. -/
def isReadyMsg (fields : List (String × Json)) : Bool :=
  match dictFind fields "type" with
  | some (Json.jstr s) => s == "player_ready"
  | _ => false

/-- Field injection for relayed objects (server.py lines 146-148):
`data.setdefault("match_id", match_id)` then
`data.setdefault("from_player_id", player_id)`. -/
def injectDefaults (fields : List (String × Json)) (mid pid : String) :
    List (String × Json) :=
  setdefault (setdefault fields "match_id" (Json.jstr mid))
    "from_player_id" (Json.jstr pid)

/-- One iteration of the receive loop (server.py lines 119-154) after
`json.loads`: `none` is a parse failure (skipped); a dict of type
player_ready marks readiness and, when the room became match-ready,
broadcasts `match_start` to every occupant; every other value is relayed to
the other occupants, dicts gaining the default fields first. The relay and
match_start sends are issued with no handler for send failures. Returns the
updated room, the attempted sends, and the surviving exception state. -/
def handleMessage (dead : List Nat) (r : MatchRoom) (mid pid : String)
    (data : Option Json) : MatchRoom × List (Nat × Json) × Except Unit Unit :=
  match data with
  | none => (r, [], Except.ok ())
  | some (Json.jobj fields) =>
    if isReadyMsg fields then
      let mr := r.mark_ready pid
      if mr.2 then
        let out := sendSeq dead (mr.1.players.map (fun kv => (kv.2, matchStartMsg mid)))
        (mr.1, out.1, out.2)
      else (mr.1, [], Except.ok ())
    else
      let payload := Json.jobj (injectDefaults fields mid pid)
      let out := sendSeq dead ((r.other_players pid).map (fun c => (c, payload)))
      (r, out.1, out.2)
  | some j =>
    let out := sendSeq dead ((r.other_players pid).map (fun c => (c, j)))
    (r, out.1, out.2)

/-- Empty-room cleanup (server.py lines 172-176). The registry maps a match
id to a room instance token; the session reads the occupant count through its
own room object `room` and deletes the registry entry for `mid` whenever that
count is zero and the key is present. The registered token is never compared
with the session's own token `roomRef`, which is therefore unused here. -/
def cleanupIfEmpty (registry : List (String × Nat)) (mid : String) (roomRef : Nat)
    (room : MatchRoom) : List (String × Nat) :=
  if room.players.length == 0 then
    if dictContains registry mid then dictDelete registry mid else registry
  else registry

/-- Room lookup-or-create (server.py lines 69-74): return the registered room
token, or register `freshRef` bound to a fresh `MatchRoom` in the store.
Returns the updated registry, the updated token store, and the session's
room token. -/
def getOrCreate (registry : List (String × Nat)) (store : List (Nat × MatchRoom))
    (mid : String) (freshRef : Nat) :
    List (String × Nat) × List (Nat × MatchRoom) × Nat :=
  match dictFind registry mid with
  | some ref => (registry, store, ref)
  | none =>
    (dictSet registry mid freshRef, dictSet store freshRef (MatchRoom.init mid), freshRef)

/-- Occupancy events a room can receive from session handlers. -/
inductive RoomEvent where
  | join : String → Nat → RoomEvent
  | leave : String → RoomEvent

/-- Effect of one event on the room: a join runs the connect phase, a leave
runs the disconnect removal (server.py line 158). -/
def applyEvent (r : MatchRoom) : RoomEvent → MatchRoom
  | RoomEvent.join pid conn => (connectStep r pid conn).1
  | RoomEvent.leave pid => r.remove_player pid

/-- Room state after a sequence of joins and leaves starting from a fresh room. -/
def runRoom (mid : String) (es : List RoomEvent) : MatchRoom :=
  es.foldl applyEvent (MatchRoom.init mid)

/-- The spec's invariant: every ready id is an occupant. -/
def readyInv (r : MatchRoom) : Prop :=
  ∀ x ∈ r.ready_players, dictContains r.players x = true

/-- Iterated `mark_ready` by the same player. -/
def readyIter (r : MatchRoom) (pid : String) : Nat → MatchRoom
  | 0 => r
  | Nat.succ n => ((readyIter r pid n).mark_ready pid).1

/-! Helper lemmas about the dict and set primitives. -/

theorem sendTo_nil (c : Nat) : sendTo [] c = Except.ok () := rfl

theorem sendSeq_nil_dead (l : List (Nat × Json)) : sendSeq [] l = (l, Except.ok ()) := by
  induction l with
  | nil => rfl
  | cons m rest ih => simp [sendSeq, sendTo_nil, ih]

theorem sendSeq_error_iff (dead : List Nat) (l : List (Nat × Json)) :
    (sendSeq dead l).2 = Except.error () ↔ ∃ m ∈ l, m.1 ∈ dead := by
  induction l with
  | nil => simp [sendSeq]
  | cons m rest ih =>
    by_cases hm : m.1 ∈ dead
    · simp [sendSeq, sendTo, hm]
    · simp [sendSeq, sendTo, hm, ih]

theorem sendSeqLenient_ok (dead : List Nat) (l : List (Nat × Json)) :
    (sendSeqLenient dead l).2 = Except.ok () := by
  induction l with
  | nil => rfl
  | cons m rest ih =>
    by_cases hm : m.1 ∈ dead
    · simp [sendSeqLenient, sendTo, hm, ih]
    · simp [sendSeqLenient, sendTo, hm, ih]

theorem sendSeq_error_map_iff (dead : List Nat) (cs : List Nat) (f : Nat → Json) :
    (sendSeq dead (cs.map (fun c => (c, f c)))).2 = Except.error () ↔
      ∃ c ∈ cs, c ∈ dead := by
  rw [sendSeq_error_iff]
  constructor
  · rintro ⟨m, hm, hdead⟩
    rcases List.mem_map.mp hm with ⟨c, hc, rfl⟩
    exact ⟨c, hc, hdead⟩
  · rintro ⟨c, hc, hdead⟩
    exact ⟨(c, f c), List.mem_map.mpr ⟨c, hc, rfl⟩, hdead⟩

section DictLemmas

variable {κ α : Type} [BEq κ] [LawfulBEq κ]

theorem dictContains_iff (d : List (κ × α)) (k : κ) :
    dictContains d k = true ↔ ∃ kv ∈ d, kv.1 = k := by
  simp [dictContains]

theorem dictContains_eq_false (d : List (κ × α)) (k : κ) :
    dictContains d k = false ↔ ∀ kv ∈ d, kv.1 ≠ k := by
  simp [dictContains]

theorem dictDelete_contains_self (d : List (κ × α)) (k : κ) :
    dictContains (dictDelete d k) k = false := by
  rw [dictContains_eq_false]
  intro kv hkv
  have := List.of_mem_filter hkv
  simpa using this

theorem mem_dictDelete {d : List (κ × α)} {k : κ} {kv : κ × α} :
    kv ∈ dictDelete d k ↔ kv ∈ d ∧ kv.1 ≠ k := by
  simp [dictDelete, List.mem_filter]

theorem dictDelete_contains_ne (d : List (κ × α)) (k x : κ) (hx : x ≠ k) :
    dictContains (dictDelete d k) x = dictContains d x := by
  by_cases h : dictContains d x = true
  · rcases (dictContains_iff d x).mp h with ⟨kv, hmem, hk⟩
    rw [h]
    exact (dictContains_iff _ x).mpr ⟨kv, mem_dictDelete.mpr ⟨hmem, by rw [hk]; exact hx⟩, hk⟩
  · have h' : dictContains d x = false := by
      cases hc : dictContains d x
      · rfl
      · exact absurd hc h
    rw [h']
    rw [dictContains_eq_false] at h' ⊢
    intro kv hkv
    exact h' kv (mem_dictDelete.mp hkv).1

omit [LawfulBEq κ] in
theorem dictDelete_length_le (d : List (κ × α)) (k : κ) :
    (dictDelete d k).length ≤ d.length :=
  List.length_filter_le _ d

theorem dictDelete_length_lt (d : List (κ × α)) (k : κ)
    (h : dictContains d k = true) : (dictDelete d k).length < d.length := by
  induction d with
  | nil => simp [dictContains] at h
  | cons kv rest ih =>
    by_cases hk : kv.1 = k
    · simp only [dictDelete, List.filter_cons, hk]
      simp only [bne_self_eq_false]
      exact Nat.lt_succ_of_le (List.length_filter_le _ rest)
    · have hrest : dictContains rest k = true := by
        rcases (dictContains_iff _ k).mp h with ⟨kv', hmem, hkv'⟩
        rcases List.mem_cons.mp hmem with rfl | hmem'
        · exact absurd hkv' hk
        · exact (dictContains_iff _ k).mpr ⟨kv', hmem', hkv'⟩
      simp only [dictDelete, List.filter_cons]
      have hb : (kv.1 != k) = true := by simpa using hk
      rw [hb]
      simpa [dictDelete] using Nat.succ_lt_succ (ih hrest)

end DictLemmas

section DictLemmas2

variable {κ α : Type} [BEq κ] [LawfulBEq κ]

theorem dictContains_iff_mem_keys (d : List (κ × α)) (k : κ) :
    dictContains d k = true ↔ k ∈ d.map Prod.fst := by
  simp [dictContains, List.mem_map]

theorem countKey_nodup_one (d : List (κ × α)) (k : κ) (hnd : keysNodup d)
    (h : dictContains d k = true) : countKey d k = 1 := by
  induction d with
  | nil => simp [dictContains] at h
  | cons kv rest ih =>
    have hnd2 : (kv.1 :: rest.map Prod.fst).Nodup := by simpa [keysNodup] using hnd
    obtain ⟨hnotmem, hndrest⟩ := List.nodup_cons.mp hnd2
    by_cases hk : (kv.1 == k) = true
    · have hkeq : kv.1 = k := by simpa using hk
      have hzero : rest.filter (fun kv => kv.1 == k) = [] := by
        rw [List.filter_eq_nil_iff]
        intro kv' hkv' hbeq
        have hkv'1 : kv'.1 = k := by simpa using hbeq
        exact hnotmem (by
          rw [hkeq, ← hkv'1]
          exact List.mem_map.mpr ⟨kv', hkv', rfl⟩)
      have h2 : List.filter (fun kv : κ × α => kv.1 == k) (kv :: rest)
          = kv :: List.filter (fun kv => kv.1 == k) rest := List.filter_cons_of_pos hk
      simp only [countKey, h2, hzero, List.length_cons, List.length_nil]
    · have hrest : dictContains rest k = true := by
        rcases (dictContains_iff _ k).mp h with ⟨kv', hmem, hkv'⟩
        rcases List.mem_cons.mp hmem with rfl | hmem'
        · exact absurd (beq_iff_eq.mpr hkv') hk
        · exact (dictContains_iff _ k).mpr ⟨kv', hmem', hkv'⟩
      have h2 : List.filter (fun kv : κ × α => kv.1 == k) (kv :: rest)
          = List.filter (fun kv => kv.1 == k) rest := List.filter_cons_of_neg hk
      simp only [countKey, h2]
      exact ih hndrest hrest

theorem dictDelete_length_count (d : List (κ × α)) (k : κ) :
    (dictDelete d k).length + countKey d k = d.length := by
  induction d with
  | nil => rfl
  | cons kv rest ih =>
    simp only [dictDelete, countKey] at ih ⊢
    by_cases hk : (kv.1 == k) = true
    · have hb : ¬ (kv.1 != k) = true := by simp [bne, hk]
      have h1 : List.filter (fun kv : κ × α => kv.1 != k) (kv :: rest)
          = List.filter (fun kv => kv.1 != k) rest := List.filter_cons_of_neg hb
      have h2 : List.filter (fun kv : κ × α => kv.1 == k) (kv :: rest)
          = kv :: List.filter (fun kv => kv.1 == k) rest := List.filter_cons_of_pos hk
      rw [h1, h2, List.length_cons, List.length_cons]
      omega
    · have hkf : (kv.1 == k) = false := by simpa using hk
      have hb : (kv.1 != k) = true := by simp [bne, hkf]
      have h1 : List.filter (fun kv : κ × α => kv.1 != k) (kv :: rest)
          = kv :: List.filter (fun kv => kv.1 != k) rest := List.filter_cons_of_pos hb
      have h2 : List.filter (fun kv : κ × α => kv.1 == k) (kv :: rest)
          = List.filter (fun kv => kv.1 == k) rest := List.filter_cons_of_neg hk
      rw [h1, h2, List.length_cons, List.length_cons]
      omega

theorem dictDelete_length_nodup (d : List (κ × α)) (k : κ) (hnd : keysNodup d)
    (h : dictContains d k = true) : (dictDelete d k).length + 1 = d.length := by
  have := dictDelete_length_count d k
  rw [countKey_nodup_one d k hnd h] at this
  exact this

theorem countKey_append_single (d : List (κ × α)) (k : κ) (v : α) :
    countKey (d ++ [(k, v)]) k = countKey d k + 1 := by
  simp [countKey, List.filter_append]

theorem countKey_eq_zero (d : List (κ × α)) (k : κ) :
    dictContains d k = false ↔ countKey d k = 0 := by
  rw [dictContains_eq_false]
  simp [countKey, List.filter_eq_nil_iff]

theorem dictDelete_countKey (d : List (κ × α)) (k : κ) :
    countKey (dictDelete d k) k = 0 :=
  (countKey_eq_zero _ k).mp (dictDelete_contains_self d k)

theorem dictContains_dictSet_of (d : List (κ × α)) (k x : κ) (v : α)
    (h : dictContains d x = true) : dictContains (dictSet d k v) x = true := by
  rcases (dictContains_iff d x).mp h with ⟨kv, hmem, hkv⟩
  by_cases hc : dictContains d k
  · simp only [dictSet, hc, if_true]
    by_cases hxk : kv.1 = k
    · refine (dictContains_iff _ x).mpr ⟨(k, v), List.mem_map.mpr ⟨kv, hmem, ?_⟩, ?_⟩
      · simp [hxk]
      · rw [← hkv, hxk]
    · refine (dictContains_iff _ x).mpr ⟨kv, List.mem_map.mpr ⟨kv, hmem, ?_⟩, hkv⟩
      simp [hxk]
  · simp only [dictSet, hc, if_false]
    exact (dictContains_iff _ x).mpr ⟨kv, List.mem_append_left _ hmem, hkv⟩

theorem dictFind_append_of_some (d d' : List (κ × α)) (k : κ) (w : α)
    (h : dictFind d k = some w) : dictFind (d ++ d') k = some w := by
  induction d with
  | nil => simp [dictFind] at h
  | cons kv rest ih =>
    by_cases hk : kv.1 = k
    · have hb : (kv.1 == k) = true := by simpa using hk
      simpa [dictFind, List.find?, hb] using (by simpa [dictFind, List.find?, hb] using h)
    · have hb : (kv.1 == k) = false := by simpa using hk
      have h' : dictFind rest k = some w := by simpa [dictFind, List.find?, hb] using h
      simpa [dictFind, List.find?, hb] using ih h'

theorem dictFind_append_of_none (d d' : List (κ × α)) (k : κ)
    (h : dictFind d k = none) : dictFind (d ++ d') k = dictFind d' k := by
  induction d with
  | nil => simp
  | cons kv rest ih =>
    by_cases hk : kv.1 = k
    · have hb : (kv.1 == k) = true := by simpa using hk
      simp [dictFind, List.find?, hb] at h
    · have hb : (kv.1 == k) = false := by simpa using hk
      have h' : dictFind rest k = none := by simpa [dictFind, List.find?, hb] using h
      simpa [dictFind, List.find?, hb] using ih h'

theorem dictFind_single_self (k : κ) (v : α) :
    dictFind ([(k, v)] : List (κ × α)) k = some v := by
  simp [dictFind, List.find?]

theorem dictFind_single_ne (k x : κ) (v : α) (hx : x ≠ k) :
    dictFind ([(k, v)] : List (κ × α)) x = none := by
  have hb : (k == x) = false := by simpa using fun h => hx h.symm
  simp [dictFind, List.find?, hb]

theorem setdefault_find_self (d : List (κ × α)) (k : κ) (v : α) :
    dictFind (setdefault d k v) k = some ((dictFind d k).getD v) := by
  cases h : dictFind d k with
  | some w => simp [setdefault, h]
  | none =>
    simp only [setdefault, h, Option.getD_none]
    rw [dictFind_append_of_none _ _ _ h, dictFind_single_self]

theorem setdefault_find_ne (d : List (κ × α)) (k x : κ) (v : α) (hx : x ≠ k) :
    dictFind (setdefault d k v) x = dictFind d x := by
  cases h : dictFind d k with
  | some w => simp [setdefault, h]
  | none =>
    simp only [setdefault, h]
    cases hx' : dictFind d x with
    | some w => exact dictFind_append_of_some _ _ _ _ hx'
    | none => rw [dictFind_append_of_none _ _ _ hx', dictFind_single_ne _ _ _ hx]

theorem dictFind_eq_none (d : List (κ × α)) (k : κ) (h : dictContains d k = false) :
    dictFind d k = none := by
  have hall := (dictContains_eq_false d k).mp h
  simp only [dictFind, Option.map_eq_none']
  rw [List.find?_eq_none]
  intro kv hkv
  simpa using hall kv hkv

omit [LawfulBEq κ] in
theorem dictSet_eq_append (d : List (κ × α)) (k : κ) (v : α)
    (h : dictContains d k = false) : dictSet d k v = d ++ [(k, v)] := by
  simp [dictSet, h]

omit [LawfulBEq κ] in
theorem dictSet_eq_map (d : List (κ × α)) (k : κ) (v : α)
    (h : dictContains d k = true) :
    dictSet d k v = d.map (fun kv => if kv.1 == k then (k, v) else kv) := by
  simp [dictSet, h]

theorem dictFind_map_set (d : List (κ × α)) (k : κ) (v : α)
    (h : dictContains d k = true) :
    dictFind (d.map (fun kv => if kv.1 == k then (k, v) else kv)) k = some v := by
  induction d with
  | nil => simp [dictContains] at h
  | cons kv rest ih =>
    by_cases hk : (kv.1 == k) = true
    · simp [dictFind, List.find?, hk]
    · have hk' : (kv.1 == k) = false := by simpa using hk
      have hrest : dictContains rest k = true := by
        rcases (dictContains_iff _ k).mp h with ⟨kv', hmem, hkv'⟩
        rcases List.mem_cons.mp hmem with rfl | hmem'
        · exact absurd (by simpa using hkv' : (kv'.1 == k) = true) (by simp [hk'])
        · exact (dictContains_iff _ k).mpr ⟨kv', hmem', hkv'⟩
      simpa [dictFind, List.find?, hk'] using ih hrest

theorem dictFind_dictSet_self (d : List (κ × α)) (k : κ) (v : α) :
    dictFind (dictSet d k v) k = some v := by
  cases hc : dictContains d k with
  | true =>
    rw [dictSet_eq_map d k v hc]
    exact dictFind_map_set d k v hc
  | false =>
    rw [dictSet_eq_append d k v hc, dictFind_append_of_none _ _ _ (dictFind_eq_none d k hc),
      dictFind_single_self]

end DictLemmas2

/-! Lemmas about the ready set and the room operations. -/

theorem mem_setAdd (s : List String) (x y : String) :
    x ∈ setAdd s y ↔ x ∈ s ∨ x = y := by
  by_cases h : y ∈ s
  · simp only [setAdd, h, if_true]
    constructor
    · exact Or.inl
    · rintro (hx | rfl)
      · exact hx
      · exact h
  · simp [setAdd, h]

theorem setAdd_of_mem {s : List String} {y : String} (h : y ∈ s) : setAdd s y = s := by
  simp [setAdd, h]

theorem setAdd_of_not_mem {s : List String} {y : String} (h : y ∉ s) :
    setAdd s y = s ++ [y] := by
  simp [setAdd, h]

theorem self_mem_setAdd (s : List String) (y : String) : y ∈ setAdd s y := by
  rw [mem_setAdd]
  exact Or.inr rfl

theorem setAdd_idem (s : List String) (y : String) :
    setAdd (setAdd s y) y = setAdd s y :=
  setAdd_of_mem (self_mem_setAdd s y)

theorem setAdd_nodup {s : List String} (y : String) (h : s.Nodup) :
    (setAdd s y).Nodup := by
  by_cases hy : y ∈ s
  · rw [setAdd_of_mem hy]
    exact h
  · rw [setAdd_of_not_mem hy]
    simpa [List.nodup_append] using ⟨h, fun hmem => hy hmem⟩

theorem mark_ready_players (r : MatchRoom) (pid : String) :
    (r.mark_ready pid).1.players = r.players := rfl

theorem mark_ready_match_id (r : MatchRoom) (pid : String) :
    (r.mark_ready pid).1.match_id = r.match_id := rfl

theorem mark_ready_ready_players (r : MatchRoom) (pid : String) :
    (r.mark_ready pid).1.ready_players = setAdd r.ready_players pid := rfl

theorem mark_ready_snd (r : MatchRoom) (pid : String) :
    (r.mark_ready pid).2 =
      (decide (2 ≤ (setAdd r.ready_players pid).length) &&
        decide (2 ≤ r.players.length)) := rfl

theorem readyIter_players (r : MatchRoom) (pid : String) (n : Nat) :
    (readyIter r pid n).players = r.players := by
  induction n with
  | zero => rfl
  | succ n ih => rw [readyIter, mark_ready_players, ih]

theorem reconnectReset_players (r : MatchRoom) (pid : String) :
    (r.reconnectReset pid).players = dictDelete r.players pid := rfl

theorem reconnectReset_ready (r : MatchRoom) (pid : String) :
    (r.reconnectReset pid).ready_players = [] := rfl

theorem add_player_players (r : MatchRoom) (pid : String) (conn : Nat) :
    (r.add_player pid conn).players = dictSet r.players pid conn := rfl

theorem add_player_ready (r : MatchRoom) (pid : String) (conn : Nat) :
    (r.add_player pid conn).ready_players = r.ready_players := rfl

theorem remove_player_players (r : MatchRoom) (pid : String) :
    (r.remove_player pid).players = dictDelete r.players pid := rfl

theorem remove_player_ready (r : MatchRoom) (pid : String) :
    (r.remove_player pid).ready_players = setRemove r.ready_players pid := rfl

theorem dictSet_length_of_contains {κ α : Type} [BEq κ] (d : List (κ × α)) (k : κ)
    (v : α) (h : dictContains d k = true) : (dictSet d k v).length = d.length := by
  simp [dictSet, h]

theorem dictSet_length_of_not_contains {κ α : Type} [BEq κ] (d : List (κ × α)) (k : κ)
    (v : α) (h : dictContains d k = false) : (dictSet d k v).length = d.length + 1 := by
  simp [dictSet, h]

theorem is_full_false_iff (r : MatchRoom) : r.is_full = false ↔ r.players.length < 2 := by
  simp [MatchRoom.is_full, decide_eq_false_iff_not]

theorem is_full_true_iff (r : MatchRoom) : r.is_full = true ↔ 2 ≤ r.players.length := by
  simp [MatchRoom.is_full]

theorem reset_not_full_of_le (r : MatchRoom) (pid : String)
    (hc : dictContains r.players pid = true) (hle : r.players.length ≤ 2) :
    (r.reconnectReset pid).is_full = false := by
  have hlt := dictDelete_length_lt r.players pid hc
  rw [is_full_false_iff, reconnectReset_players]
  omega

theorem connectStep_not_contains_full (r : MatchRoom) (pid : String) (conn : Nat)
    (hnc : dictContains r.players pid = false) (hf : r.is_full = true) :
    connectStep r pid conn = (r, ConnectResult.rejected) := by
  simp [connectStep, hnc, hf]

theorem connectStep_not_contains_notfull (r : MatchRoom) (pid : String) (conn : Nat)
    (hnc : dictContains r.players pid = false) (hf : r.is_full = false) :
    connectStep r pid conn = (r.add_player pid conn, ConnectResult.joined) := by
  simp [connectStep, hnc, hf]

theorem connectStep_contains (r : MatchRoom) (pid : String) (conn : Nat)
    (hc : dictContains r.players pid = true)
    (hnf : (r.reconnectReset pid).is_full = false) :
    connectStep r pid conn = ((r.reconnectReset pid).add_player pid conn,
      ConnectResult.joined) := by
  simp [connectStep, hc, hnf]

theorem connectStep_contains_full (r : MatchRoom) (pid : String) (conn : Nat)
    (hc : dictContains r.players pid = true)
    (hf : (r.reconnectReset pid).is_full = true) :
    connectStep r pid conn = (r.reconnectReset pid, ConnectResult.rejected) := by
  have hnc : dictContains (r.reconnectReset pid).players pid = false := by
    rw [reconnectReset_players]
    exact dictDelete_contains_self _ _
  simp [connectStep, hc, hf, hnc]

theorem connectStep_length_le (r : MatchRoom) (pid : String) (conn : Nat)
    (h : r.players.length ≤ 2) : (connectStep r pid conn).1.players.length ≤ 2 := by
  cases hc : dictContains r.players pid with
  | true =>
    have hnf := reset_not_full_of_le r pid hc h
    rw [connectStep_contains r pid conn hc hnf]
    have hnc : dictContains (r.reconnectReset pid).players pid = false := by
      rw [reconnectReset_players]
      exact dictDelete_contains_self _ _
    have hlt := dictDelete_length_lt r.players pid hc
    have := dictSet_length_of_not_contains (r.reconnectReset pid).players pid conn hnc
    simp only [add_player_players, reconnectReset_players] at this ⊢
    omega
  | false =>
    cases hf : r.is_full with
    | true =>
      rw [connectStep_not_contains_full r pid conn hc hf]
      exact h
    | false =>
      rw [connectStep_not_contains_notfull r pid conn hc hf]
      have hlen := dictSet_length_of_not_contains r.players pid conn hc
      have hlt := (is_full_false_iff r).mp hf
      simp only [add_player_players, hlen]
      omega

/-! Claim theorems. -/

/-- C8: for every sequence of joins (reconnections included) and leaves
applied to a fresh room, the occupant dict never holds more than two
entries: the occupant bound is an invariant of every reachable room state. -/
theorem C8_occupancy_bound (mid : String) (es : List RoomEvent) :
    (runRoom mid es).players.length ≤ 2 := by
  suffices h : ∀ (l : List RoomEvent) (r : MatchRoom), r.players.length ≤ 2 →
      (l.foldl applyEvent r).players.length ≤ 2 by
    exact h es (MatchRoom.init mid) (by simp [MatchRoom.init])
  intro l
  induction l with
  | nil =>
    intro r h
    simpa using h
  | cons e rest ih =>
    intro r h
    rw [List.foldl_cons]
    apply ih
    cases e with
    | join pid conn => exact connectStep_length_le r pid conn h
    | leave pid =>
      have := dictDelete_length_le (κ := String) (α := Nat) r.players pid
      simp only [applyEvent, remove_player_players]
      omega

/-- C10: mark_ready is idempotent per player: a second call with occupancy
unchanged returns the identical room and boolean; and with fewer than two
occupants, any number of mark_ready calls by the same player still reports
false, so a lone occupant never triggers match_start. -/
theorem C10_mark_ready_idempotent (r : MatchRoom) (pid : String) (n : Nat) :
    ((r.mark_ready pid).1).mark_ready pid = r.mark_ready pid ∧
    (r.players.length < 2 → ((readyIter r pid n).mark_ready pid).2 = false) := by
  constructor
  · simp [MatchRoom.mark_ready, setAdd_idem]
  · intro hlen
    rw [mark_ready_snd, readyIter_players]
    have hd : decide (2 ≤ r.players.length) = false := decide_eq_false (by omega)
    rw [hd, Bool.and_false]

/-- C10 witness: idempotence and the lone-occupant case at a concrete room. -/
theorem C10_mark_ready_idempotent_witness :
    ((((MatchRoom.init "m").add_player "A" 1).mark_ready "A").1).mark_ready "A" =
      ((MatchRoom.init "m").add_player "A" 1).mark_ready "A" ∧
    ((readyIter ((MatchRoom.init "m").add_player "A" 1) "A" 5).mark_ready "A").2 = false :=
  ⟨(C10_mark_ready_idempotent ((MatchRoom.init "m").add_player "A" 1) "A" 5).1,
   (C10_mark_ready_idempotent ((MatchRoom.init "m").add_player "A" 1) "A" 5).2 (by decide)⟩

/-- C3 counterexample: the empty room satisfies the subset invariant, yet
mark_ready for the non-occupant id "C" (one of the operations the claim
covers) yields a state violating it. -/
theorem C3_counterexample :
    readyInv (MatchRoom.init "m") ∧
    ¬ readyInv ((MatchRoom.init "m").mark_ready "C").1 := by
  constructor
  · intro x hx
    simp [MatchRoom.init] at hx
  · intro hinv
    have h := hinv "C" (by simp [MatchRoom.mark_ready, MatchRoom.init, setAdd])
    simp [MatchRoom.init, MatchRoom.mark_ready, dictContains] at h

/-- C3 (amended): add_player, remove_player and the reconnection reset each
preserve the invariant ready_set ⊆ keys(occupants); mark_ready preserves it
provided the marked id is an occupant -- for a non-occupant it can break the
invariant, as the counterexample shows. -/
theorem C3_invariant_preservation (r : MatchRoom) (pid : String) (conn : Nat)
    (h : readyInv r) :
    readyInv (r.add_player pid conn) ∧
    readyInv (r.remove_player pid) ∧
    readyInv (r.reconnectReset pid) ∧
    (dictContains r.players pid = true → readyInv (r.mark_ready pid).1) := by
  refine ⟨?_, ?_, ?_, ?_⟩
  · intro x hx
    rw [add_player_players]
    have hx' : x ∈ r.ready_players := by simpa [add_player_ready] using hx
    exact dictContains_dictSet_of r.players pid x conn (h x hx')
  · intro x hx
    rw [remove_player_players]
    rw [remove_player_ready] at hx
    have hxr : x ∈ r.ready_players := List.mem_of_mem_filter hx
    have hxne : x ≠ pid := by simpa using List.of_mem_filter hx
    rw [dictDelete_contains_ne r.players pid x hxne]
    exact h x hxr
  · intro x hx
    rw [reconnectReset_ready] at hx
    simp at hx
  · intro hc x hx
    rw [mark_ready_players]
    rw [mark_ready_ready_players, mem_setAdd] at hx
    rcases hx with hx | rfl
    · exact h x hx
    · exact hc

/-- C3 witness: the four preservation statements at a concrete room. -/
theorem C3_invariant_preservation_witness :
    readyInv ((⟨"m", [("A", 1)], ["A"]⟩ : MatchRoom).add_player "A" 7) ∧
    readyInv ((⟨"m", [("A", 1)], ["A"]⟩ : MatchRoom).remove_player "A") ∧
    readyInv ((⟨"m", [("A", 1)], ["A"]⟩ : MatchRoom).reconnectReset "A") ∧
    (dictContains (⟨"m", [("A", 1)], ["A"]⟩ : MatchRoom).players "A" = true →
      readyInv ((⟨"m", [("A", 1)], ["A"]⟩ : MatchRoom).mark_ready "A").1) :=
  C3_invariant_preservation (⟨"m", [("A", 1)], ["A"]⟩ : MatchRoom) "A" 7 (by
    intro x hx
    simp only [List.mem_singleton] at hx
    subst hx
    rfl)

/-- C2 counterexample: calling mark_ready for "C", which occupies no slot of
the two-occupant room, is not a no-op -- the ready set changes -- and it
returns true rather than the false readiness result the claim states. -/
theorem C2_counterexample :
    dictContains (⟨"m", [("A", 1), ("B", 2)], ["A"]⟩ : MatchRoom).players "C" = false ∧
    ((⟨"m", [("A", 1), ("B", 2)], ["A"]⟩ : MatchRoom).mark_ready "C").1.ready_players ≠
      (⟨"m", [("A", 1), ("B", 2)], ["A"]⟩ : MatchRoom).ready_players ∧
    ((⟨"m", [("A", 1), ("B", 2)], ["A"]⟩ : MatchRoom).mark_ready "C").2 = true := by
  refine ⟨rfl, ?_, rfl⟩
  decide

/-- C2 (amended): mark_ready always inserts the id into the ready set (so for
a non-occupant the room state does change), leaves the occupant dict
unchanged, never errors, and returns true iff afterwards the ready set holds
at least two ids and the room at least two occupants; under the subset
invariant, with a duplicate-free ready set, at most two occupants and the id
itself an occupant, that condition coincides with being match-ready. -/
theorem C2_mark_ready_spec (r : MatchRoom) (pid : String) :
    (r.mark_ready pid).1.players = r.players ∧
    (r.mark_ready pid).1.ready_players = setAdd r.ready_players pid ∧
    ((r.mark_ready pid).2 = true ↔
      2 ≤ (setAdd r.ready_players pid).length ∧ 2 ≤ r.players.length) ∧
    (readyInv r → r.ready_players.Nodup → r.players.length ≤ 2 →
      dictContains r.players pid = true →
      ((r.mark_ready pid).2 = true ↔
        (setAdd r.ready_players pid).length = 2 ∧ r.players.length = 2)) := by
  refine ⟨rfl, rfl, ?_, ?_⟩
  · rw [mark_ready_snd]
    simp [Bool.and_eq_true, decide_eq_true_eq]
  · intro hinv hnd hle hc
    have hsub : ∀ x ∈ setAdd r.ready_players pid, x ∈ r.players.map Prod.fst := by
      intro x hx
      rw [mem_setAdd] at hx
      rcases hx with hx | rfl
      · exact (dictContains_iff_mem_keys _ _).mp (hinv x hx)
      · exact (dictContains_iff_mem_keys _ _).mp hc
    have hnd' := setAdd_nodup pid hnd
    have hlen := (List.Nodup.subperm hnd' hsub).length_le
    rw [List.length_map] at hlen
    rw [mark_ready_snd]
    simp only [Bool.and_eq_true, decide_eq_true_eq]
    constructor
    · rintro ⟨h1, h2⟩
      exact ⟨by omega, by omega⟩
    · rintro ⟨h1, h2⟩
      exact ⟨by omega, by omega⟩

/-- C2 witness: the match-ready equivalence at a concrete two-occupant room. -/
theorem C2_mark_ready_spec_witness :
    ((⟨"m", [("A", 1), ("B", 2)], ["A"]⟩ : MatchRoom).mark_ready "B").2 = true ↔
      (setAdd (⟨"m", [("A", 1), ("B", 2)], ["A"]⟩ : MatchRoom).ready_players "B").length = 2 ∧
        (⟨"m", [("A", 1), ("B", 2)], ["A"]⟩ : MatchRoom).players.length = 2 :=
  (C2_mark_ready_spec (⟨"m", [("A", 1), ("B", 2)], ["A"]⟩ : MatchRoom) "B").2.2.2
    (by
      intro x hx
      simp only [List.mem_singleton] at hx
      subst hx
      rfl)
    (by decide) (by decide) (by decide)

/-- C1: when occupants A and B are both ready and A reconnects, the connect
phase clears the whole ready set; B re-signalling alone reports false (no
match_start), and A then re-signalling reports true -- both must re-signal. -/
theorem C1_reconnect_clears_ready (r : MatchRoom) (A B : String) (cA : Nat)
    (hlen : r.players.length = 2) (hnd : keysNodup r.players)
    (hA : dictContains r.players A = true) (hB : dictContains r.players B = true)
    (hAB : A ≠ B) (hArdy : A ∈ r.ready_players) (hBrdy : B ∈ r.ready_players) :
    (connectStep r A cA).2 = ConnectResult.joined ∧
    (connectStep r A cA).1.ready_players = [] ∧
    (((connectStep r A cA).1).mark_ready B).2 = false ∧
    ((((connectStep r A cA).1).mark_ready B).1.mark_ready A).2 = true := by
  have hnf : (r.reconnectReset A).is_full = false :=
    reset_not_full_of_le r A hA (by omega)
  have hstep := connectStep_contains r A cA hA hnf
  have hdel : (dictDelete r.players A).length + 1 = r.players.length :=
    dictDelete_length_nodup r.players A hnd hA
  have hnc : dictContains (r.reconnectReset A).players A = false := by
    rw [reconnectReset_players]
    exact dictDelete_contains_self _ _
  have hre : (connectStep r A cA).1 = (r.reconnectReset A).add_player A cA := by
    rw [hstep]
  have hres : (connectStep r A cA).2 = ConnectResult.joined := by rw [hstep]
  have hJready : ((r.reconnectReset A).add_player A cA).ready_players = [] := by
    rw [add_player_ready, reconnectReset_ready]
  have hJlen : ((r.reconnectReset A).add_player A cA).players.length = 2 := by
    rw [add_player_players, dictSet_length_of_not_contains _ _ _ hnc,
      reconnectReset_players]
    omega
  refine ⟨hres, by rw [hre, hJready], ?_, ?_⟩
  · rw [hre, mark_ready_snd, hJready]
    simp [setAdd]
  · rw [hre, mark_ready_snd, mark_ready_ready_players, mark_ready_players, hJready,
      hJlen]
    simp [setAdd, hAB]

/-- C1 witness: the reconnection scenario at a concrete two-occupant room. -/
theorem C1_reconnect_clears_ready_witness :
    (connectStep (⟨"m", [("A", 1), ("B", 2)], ["A", "B"]⟩ : MatchRoom) "A" 7).2 =
      ConnectResult.joined ∧
    (connectStep (⟨"m", [("A", 1), ("B", 2)], ["A", "B"]⟩ : MatchRoom) "A" 7).1.ready_players = [] ∧
    (((connectStep (⟨"m", [("A", 1), ("B", 2)], ["A", "B"]⟩ : MatchRoom) "A" 7).1).mark_ready "B").2 = false ∧
    ((((connectStep (⟨"m", [("A", 1), ("B", 2)], ["A", "B"]⟩ : MatchRoom) "A" 7).1).mark_ready "B").1.mark_ready "A").2 = true :=
  C1_reconnect_clears_ready (⟨"m", [("A", 1), ("B", 2)], ["A", "B"]⟩ : MatchRoom)
    "A" "B" 7 (by decide) (by unfold keysNodup; decide) (by decide) (by decide)
    (by decide) (by decide) (by decide)

/-- C4: with at most two occupants, the connect phase rejects iff the room is
full and the id matches no occupant (a rejection leaves the room unchanged);
a matching id always joins regardless of fullness, and after a join the
occupant dict holds exactly one entry for that id. -/
theorem C4_capacity_policy (r : MatchRoom) (pid : String) (conn : Nat)
    (hle : r.players.length ≤ 2) :
    ((connectStep r pid conn).2 = ConnectResult.rejected ↔
      r.is_full = true ∧ dictContains r.players pid = false) ∧
    ((connectStep r pid conn).2 = ConnectResult.rejected →
      (connectStep r pid conn).1 = r) ∧
    (dictContains r.players pid = true →
      (connectStep r pid conn).2 = ConnectResult.joined) ∧
    ((connectStep r pid conn).2 = ConnectResult.joined →
      countKey (connectStep r pid conn).1.players pid = 1) := by
  cases hc : dictContains r.players pid with
  | true =>
    have hnf := reset_not_full_of_le r pid hc hle
    have hstep := connectStep_contains r pid conn hc hnf
    have hnc : dictContains (r.reconnectReset pid).players pid = false := by
      rw [reconnectReset_players]
      exact dictDelete_contains_self _ _
    refine ⟨?_, ?_, ?_, ?_⟩
    · rw [hstep]
      simp [hc]
    · rw [hstep]
      intro h
      simp at h
    · intro _
      rw [hstep]
    · intro _
      rw [hstep]
      show countKey ((r.reconnectReset pid).add_player pid conn).players pid = 1
      rw [add_player_players, dictSet_eq_append _ _ _ hnc, countKey_append_single,
        reconnectReset_players, dictDelete_countKey]
  | false =>
    cases hf : r.is_full with
    | true =>
      have hstep := connectStep_not_contains_full r pid conn hc hf
      refine ⟨?_, ?_, ?_, ?_⟩
      · rw [hstep]
        simp [hf, hc]
      · rw [hstep]
        intro _
        rfl
      · intro h
        exact Bool.noConfusion h
      · intro hj
        rw [hstep] at hj
        exact ConnectResult.noConfusion hj
    | false =>
      have hstep := connectStep_not_contains_notfull r pid conn hc hf
      refine ⟨?_, ?_, ?_, ?_⟩
      · rw [hstep]
        simp [hf]
      · rw [hstep]
        intro h
        simp at h
      · intro h
        exact Bool.noConfusion h
      · intro _
        rw [hstep]
        show countKey (r.add_player pid conn).players pid = 1
        rw [add_player_players, dictSet_eq_append _ _ _ hc, countKey_append_single]
        have h0 := (countKey_eq_zero r.players pid).mp hc
        omega

/-- C4 witness: the rejection equivalence at a concrete full room and a fresh
id. -/
theorem C4_capacity_policy_witness :
    ((connectStep (⟨"m", [("A", 1), ("B", 2)], []⟩ : MatchRoom) "C" 9).2 =
        ConnectResult.rejected ↔
      (⟨"m", [("A", 1), ("B", 2)], []⟩ : MatchRoom).is_full = true ∧
        dictContains (⟨"m", [("A", 1), ("B", 2)], []⟩ : MatchRoom).players "C" = false) ∧
    ((connectStep (⟨"m", [("A", 1), ("B", 2)], []⟩ : MatchRoom) "C" 9).2 =
        ConnectResult.rejected →
      (connectStep (⟨"m", [("A", 1), ("B", 2)], []⟩ : MatchRoom) "C" 9).1 =
        (⟨"m", [("A", 1), ("B", 2)], []⟩ : MatchRoom)) ∧
    (dictContains (⟨"m", [("A", 1), ("B", 2)], []⟩ : MatchRoom).players "C" = true →
      (connectStep (⟨"m", [("A", 1), ("B", 2)], []⟩ : MatchRoom) "C" 9).2 =
        ConnectResult.joined) ∧
    ((connectStep (⟨"m", [("A", 1), ("B", 2)], []⟩ : MatchRoom) "C" 9).2 =
        ConnectResult.joined →
      countKey (connectStep (⟨"m", [("A", 1), ("B", 2)], []⟩ : MatchRoom) "C" 9).1.players "C" = 1) :=
  C4_capacity_policy (⟨"m", [("A", 1), ("B", 2)], []⟩ : MatchRoom) "C" 9 (by decide)

/-! Unfolding lemmas for the receive-loop step. -/

theorem handleMessage_none (dead : List Nat) (r : MatchRoom) (mid pid : String) :
    handleMessage dead r mid pid none = (r, [], Except.ok ()) := rfl

theorem handleMessage_obj_relay (dead : List Nat) (r : MatchRoom) (mid pid : String)
    (fields : List (String × Json)) (h : isReadyMsg fields = false) :
    handleMessage dead r mid pid (some (Json.jobj fields)) =
      (r,
       (sendSeq dead ((r.other_players pid).map
         (fun c => (c, Json.jobj (injectDefaults fields mid pid))))).1,
       (sendSeq dead ((r.other_players pid).map
         (fun c => (c, Json.jobj (injectDefaults fields mid pid))))).2) := by
  simp [handleMessage, h]

theorem handleMessage_obj_ready (dead : List Nat) (r : MatchRoom) (mid pid : String)
    (fields : List (String × Json)) (h : isReadyMsg fields = true) :
    handleMessage dead r mid pid (some (Json.jobj fields)) =
      if (r.mark_ready pid).2 then
        ((r.mark_ready pid).1,
         (sendSeq dead ((r.mark_ready pid).1.players.map
           (fun kv => (kv.2, matchStartMsg mid)))).1,
         (sendSeq dead ((r.mark_ready pid).1.players.map
           (fun kv => (kv.2, matchStartMsg mid)))).2)
      else ((r.mark_ready pid).1, [], Except.ok ()) := by
  simp [handleMessage, h]

theorem handleMessage_not_obj (dead : List Nat) (r : MatchRoom) (mid pid : String)
    (j : Json) (h : ∀ fs, j ≠ Json.jobj fs) :
    handleMessage dead r mid pid (some j) =
      (r, (sendSeq dead ((r.other_players pid).map (fun c => (c, j)))).1,
       (sendSeq dead ((r.other_players pid).map (fun c => (c, j)))).2) := by
  cases j with
  | jobj fs => exact absurd rfl (h fs)
  | jnull => rfl
  | jbool b => rfl
  | jnum n => rfl
  | jstr s => rfl
  | jarr l => rfl

/-- C5 counterexample: with the peer handle 5 dead, relaying {"foo": 1} from A
and broadcasting A's join notification both end in an uncaught send failure:
the error propagates out of the step instead of being swallowed. -/
theorem C5_counterexample :
    (handleMessage [5] (⟨"m", [("A", 1), ("B", 5)], []⟩ : MatchRoom) "m" "A"
      (some (Json.jobj [("foo", Json.jnum 1)]))).2.2 = Except.error () ∧
    (joinBroadcast [5] (⟨"m", [("A", 1), ("B", 5)], []⟩ : MatchRoom) "m" "A").2 =
      Except.error () :=
  ⟨rfl, rfl⟩

/-- C5 (amended): only the leave-notification broadcast swallows send
failures; the join notification, the payload relay and the match_start
broadcast run with no handler for send failures, so their step raises exactly
when one of the targeted handles is dead. -/
theorem C5_send_failure_policy (dead : List Nat) (r : MatchRoom)
    (mid pid : String) (fields : List (String × Json)) :
    (leaveBroadcast dead r mid pid).2 = Except.ok () ∧
    ((joinBroadcast dead r mid pid).2 = Except.error () ↔
      ∃ c ∈ r.other_players pid, c ∈ dead) ∧
    (isReadyMsg fields = false →
      ((handleMessage dead r mid pid (some (Json.jobj fields))).2.2 =
          Except.error () ↔
        ∃ c ∈ r.other_players pid, c ∈ dead)) ∧
    (isReadyMsg fields = true → (r.mark_ready pid).2 = true →
      ((handleMessage dead r mid pid (some (Json.jobj fields))).2.2 =
          Except.error () ↔
        ∃ kv ∈ (r.mark_ready pid).1.players, kv.2 ∈ dead)) := by
  refine ⟨sendSeqLenient_ok _ _, ?_, ?_, ?_⟩
  · exact sendSeq_error_map_iff dead (r.other_players pid) (fun _ => joinedMsg mid pid)
  · intro hrm
    rw [handleMessage_obj_relay _ _ _ _ _ hrm]
    exact sendSeq_error_map_iff dead (r.other_players pid)
      (fun _ => Json.jobj (injectDefaults fields mid pid))
  · intro hrm htrue
    have hmsg := handleMessage_obj_ready dead r mid pid fields hrm
    rw [htrue] at hmsg
    rw [hmsg, if_pos rfl]
    rw [sendSeq_error_iff]
    constructor
    · rintro ⟨m, hm, hd⟩
      rcases List.mem_map.mp hm with ⟨kv, hkv, rfl⟩
      exact ⟨kv, hkv, hd⟩
    · rintro ⟨kv, hkv, hd⟩
      exact ⟨(kv.2, matchStartMsg mid), List.mem_map.mpr ⟨kv, hkv, rfl⟩, hd⟩

/-- C5 witness: the relay and match_start propagation cases at a concrete
room with a dead peer. -/
theorem C5_send_failure_policy_witness :
    ((handleMessage [5] (⟨"m", [("A", 1), ("B", 5)], ["B"]⟩ : MatchRoom) "m" "A"
        (some (Json.jobj [("foo", Json.jnum 1)]))).2.2 = Except.error () ↔
      ∃ c ∈ (⟨"m", [("A", 1), ("B", 5)], ["B"]⟩ : MatchRoom).other_players "A",
        c ∈ [5]) ∧
    ((handleMessage [5] (⟨"m", [("A", 1), ("B", 5)], ["B"]⟩ : MatchRoom) "m" "A"
        (some (Json.jobj [("type", Json.jstr "player_ready")]))).2.2 =
          Except.error () ↔
      ∃ kv ∈ ((⟨"m", [("A", 1), ("B", 5)], ["B"]⟩ : MatchRoom).mark_ready "A").1.players,
        kv.2 ∈ [5]) :=
  ⟨(C5_send_failure_policy [5] (⟨"m", [("A", 1), ("B", 5)], ["B"]⟩ : MatchRoom) "m" "A"
      [("foo", Json.jnum 1)]).2.2.1 rfl,
   (C5_send_failure_policy [5] (⟨"m", [("A", 1), ("B", 5)], ["B"]⟩ : MatchRoom) "m" "A"
      [("type", Json.jstr "player_ready")]).2.2.2 rfl rfl⟩

/-- C6: a player_ready object marks readiness and is itself never relayed;
when mark_ready reports true, the match_start message is sent to every
current occupant -- the sender included -- and when it reports false nothing
is sent; every attempted send carries only the match_start payload. -/
theorem C6_ready_broadcast (r : MatchRoom) (mid pid : String)
    (fields : List (String × Json)) (h : isReadyMsg fields = true) :
    (handleMessage [] r mid pid (some (Json.jobj fields))).1 = (r.mark_ready pid).1 ∧
    ((r.mark_ready pid).2 = true →
      (handleMessage [] r mid pid (some (Json.jobj fields))).2.1 =
        (r.mark_ready pid).1.players.map (fun kv => (kv.2, matchStartMsg mid))) ∧
    ((r.mark_ready pid).2 = false →
      (handleMessage [] r mid pid (some (Json.jobj fields))).2.1 = []) ∧
    (∀ m ∈ (handleMessage [] r mid pid (some (Json.jobj fields))).2.1,
      m.2 = matchStartMsg mid) ∧
    ((r.mark_ready pid).2 = true → ∀ c : Nat, (pid, c) ∈ r.players →
      (c, matchStartMsg mid) ∈ (handleMessage [] r mid pid (some (Json.jobj fields))).2.1) := by
  have hmsg := handleMessage_obj_ready [] r mid pid fields h
  cases hb : (r.mark_ready pid).2 with
  | true =>
    rw [hb, if_pos rfl, sendSeq_nil_dead] at hmsg
    rw [hmsg]
    refine ⟨rfl, fun _ => rfl, ?_, ?_, ?_⟩
    · intro hfalse
      exact Bool.noConfusion hfalse
    · intro m hm
      rcases List.mem_map.mp hm with ⟨kv, _, rfl⟩
      rfl
    · intro _ c hc
      refine List.mem_map.mpr ⟨(pid, c), ?_, rfl⟩
      rw [mark_ready_players]
      exact hc
  | false =>
    rw [hb, if_neg Bool.false_ne_true] at hmsg
    rw [hmsg]
    refine ⟨rfl, ?_, fun _ => rfl, ?_, ?_⟩
    · intro htrue
      exact Bool.noConfusion htrue
    · intro m hm
      simp at hm
    · intro htrue
      exact Bool.noConfusion htrue

/-- C6 witness: the full-room match_start broadcast at a concrete room where
the peer is already ready. -/
theorem C6_ready_broadcast_witness :
    (handleMessage [] (⟨"m", [("A", 1), ("B", 2)], ["B"]⟩ : MatchRoom) "m" "A"
      (some (Json.jobj [("type", Json.jstr "player_ready")]))).2.1 =
      ((⟨"m", [("A", 1), ("B", 2)], ["B"]⟩ : MatchRoom).mark_ready "A").1.players.map
        (fun kv => (kv.2, matchStartMsg "m")) :=
  (C6_ready_broadcast (⟨"m", [("A", 1), ("B", 2)], ["B"]⟩ : MatchRoom) "m" "A"
    [("type", Json.jstr "player_ready")] rfl).2.1 rfl

/-- C7: a relayed object gains match_id and from_player_id only when those
keys are absent -- caller-supplied values survive verbatim and all other keys
are untouched -- and a non-object payload is relayed to the other occupants
unchanged, with no injection. -/
theorem C7_relay_injection (r : MatchRoom) (mid pid : String)
    (fields : List (String × Json)) (j : Json)
    (hty : isReadyMsg fields = false) (hnotobj : ∀ fs, j ≠ Json.jobj fs) :
    (∀ v, dictFind fields "match_id" = some v →
      dictFind (injectDefaults fields mid pid) "match_id" = some v) ∧
    (dictFind fields "match_id" = none →
      dictFind (injectDefaults fields mid pid) "match_id" = some (Json.jstr mid)) ∧
    (∀ v, dictFind fields "from_player_id" = some v →
      dictFind (injectDefaults fields mid pid) "from_player_id" = some v) ∧
    (dictFind fields "from_player_id" = none →
      dictFind (injectDefaults fields mid pid) "from_player_id" = some (Json.jstr pid)) ∧
    (∀ k, k ≠ "match_id" → k ≠ "from_player_id" →
      dictFind (injectDefaults fields mid pid) k = dictFind fields k) ∧
    (handleMessage [] r mid pid (some (Json.jobj fields))).1 = r ∧
    (handleMessage [] r mid pid (some (Json.jobj fields))).2.1 =
      (r.other_players pid).map (fun c => (c, Json.jobj (injectDefaults fields mid pid))) ∧
    (handleMessage [] r mid pid (some j)).2.1 =
      (r.other_players pid).map (fun c => (c, j)) := by
  have hne : ("match_id" : String) ≠ "from_player_id" := by decide
  refine ⟨?_, ?_, ?_, ?_, ?_, ?_, ?_, ?_⟩
  · intro v hv
    rw [injectDefaults, setdefault_find_ne _ _ _ _ hne, setdefault_find_self, hv]
    rfl
  · intro hv
    rw [injectDefaults, setdefault_find_ne _ _ _ _ hne, setdefault_find_self, hv]
    rfl
  · intro v hv
    rw [injectDefaults, setdefault_find_self, setdefault_find_ne _ _ _ _ (Ne.symm hne),
      hv]
    rfl
  · intro hv
    rw [injectDefaults, setdefault_find_self, setdefault_find_ne _ _ _ _ (Ne.symm hne),
      hv]
    rfl
  · intro k hk1 hk2
    rw [injectDefaults, setdefault_find_ne _ _ _ _ hk2, setdefault_find_ne _ _ _ _ hk1]
  · rw [handleMessage_obj_relay _ _ _ _ _ hty]
  · rw [handleMessage_obj_relay _ _ _ _ _ hty, sendSeq_nil_dead]
  · rw [handleMessage_not_obj _ _ _ _ _ hnotobj, sendSeq_nil_dead]

/-- C7 witness: a caller-supplied match_id survives the injection verbatim. -/
theorem C7_relay_injection_witness :
    dictFind (injectDefaults [("match_id", Json.jstr "X"), ("k", Json.jnum 3)] "m" "A")
      "match_id" = some (Json.jstr "X") :=
  (C7_relay_injection (⟨"m", [("A", 1), ("B", 2)], []⟩ : MatchRoom) "m" "A"
    [("match_id", Json.jstr "X"), ("k", Json.jnum 3)] (Json.jarr []) rfl
    (fun _ h => Json.noConfusion h)).1 (Json.jstr "X") rfl

/-- C9 counterexample: the registry maps "m" to room instance 2 while the
session's own room (instance 1) is empty; the cleanup checks only key
presence, never instance identity, so it deletes the entry although it holds
a different, fresh instance. -/
theorem C9_counterexample :
    dictFind ([("m", 2)] : List (String × Nat)) "m" = some 2 ∧ (2 : Nat) ≠ 1 ∧
    cleanupIfEmpty [("m", 2)] "m" 1 (MatchRoom.init "m") = [] :=
  ⟨rfl, by decide, rfl⟩

/-- C9 (amended): the cleanup deletes the registry entry iff the session's
room object has zero occupants and the match id is present -- the registered
instance is never compared with the session's room, so a fresh room
registered under the same id in the window is deleted as well; otherwise it
is a no-op and never errors. A lookup after deletion registers a fresh room
with empty occupants and empty ready set. -/
theorem C9_cleanup_spec (registry : List (String × Nat))
    (store : List (Nat × MatchRoom)) (mid : String) (ref fresh : Nat)
    (room : MatchRoom) :
    (room.players.length = 0 → dictContains registry mid = true →
      cleanupIfEmpty registry mid ref room = dictDelete registry mid) ∧
    (room.players.length ≠ 0 → cleanupIfEmpty registry mid ref room = registry) ∧
    (dictContains registry mid = false →
      cleanupIfEmpty registry mid ref room = registry) ∧
    (dictFind registry mid = none →
      (getOrCreate registry store mid fresh).2.2 = fresh ∧
      dictFind (getOrCreate registry store mid fresh).2.1 fresh =
        some (MatchRoom.init mid) ∧
      (MatchRoom.init mid).players = [] ∧
      (MatchRoom.init mid).ready_players = []) := by
  refine ⟨?_, ?_, ?_, ?_⟩
  · intro h0 hc
    simp [cleanupIfEmpty, h0, hc]
  · intro h0
    have hb : (room.players.length == 0) = false := by simpa using h0
    simp [cleanupIfEmpty, hb]
  · intro hc
    simp [cleanupIfEmpty, hc]
  · intro hn
    refine ⟨?_, ?_, rfl, rfl⟩
    · simp [getOrCreate, hn]
    · simp [getOrCreate, hn, dictFind_dictSet_self]

/-- C9 witness: deletion of a present empty room and fresh-state creation at
concrete inputs. -/
theorem C9_cleanup_spec_witness :
    cleanupIfEmpty [("m", 7)] "m" 7 (MatchRoom.init "m") = dictDelete [("m", 7)] "m" ∧
    dictFind (getOrCreate [] [] "m" 3).2.1 3 = some (MatchRoom.init "m") :=
  ⟨(C9_cleanup_spec [("m", 7)] [] "m" 7 3 (MatchRoom.init "m")).1 rfl rfl,
   ((C9_cleanup_spec [] [] "m" 7 3 (MatchRoom.init "m")).2.2.2 rfl).2.1⟩
